import Mathlib

set_option maxRecDepth 100000

/-!
Shallow embedding of the adaptive streaming voice-activity trimmer
(`src/audio/vad.rs`, struct `FastVad` and friends) of hyprwhispr-rs.

Modelling conventions:
* Samples are opaque: `trim` is polymorphic in the sample type `α`
  (the code never branches on sample values; the per-frame speech
  decision comes from the external earshot classifier, which the claims
  quantify over, so it is modelled as an oracle `ℕ → Option Bool`
  giving the decision, or the failure, for the i-th evaluated frame).
* Rust `u32`/`usize` become `ℕ`; `saturating_sub` is `ℕ` subtraction.
* The `f32` volatility thresholds and the volatility ratio are modelled
  as exact rationals `ℚ`; `MIN_VOLATILITY_DELTA = 0.01` is `1/100` and
  `f32::EPSILON` is `2⁻²³`.
* `VecDeque` front is the head of a `List` (push_back appends, pop_front
  is `tail`).
-/

/-- `FastVadProfile` (vad.rs lines 16-22). -/
inductive FastVadProfile where
  | quality
  | lowBitrate
  | aggressive
  | veryAggressive
  deriving DecidableEq, Repr

namespace FastVadProfile

/-- `FastVadProfile::rank` (vad.rs lines 25-32). -/
def rank : FastVadProfile → ℕ
  | quality => 0
  | lowBitrate => 1
  | aggressive => 2
  | veryAggressive => 3

/-- `FastVadProfile::more_aggressive` (vad.rs lines 34-41). -/
def more_aggressive : FastVadProfile → Option FastVadProfile
  | quality => some lowBitrate
  | lowBitrate => some aggressive
  | aggressive => some veryAggressive
  | veryAggressive => none

/-- `FastVadProfile::less_aggressive` (vad.rs lines 43-50). -/
def less_aggressive : FastVadProfile → Option FastVadProfile
  | quality => none
  | lowBitrate => some quality
  | aggressive => some lowBitrate
  | veryAggressive => some aggressive

end FastVadProfile

/-- `FastVadProfileConfig` (config side of the profile enum, mirrored by
the `From` impl in vad.rs lines 65-74). -/
inductive FastVadProfileConfig where
  | quality
  | lowBitrate
  | aggressive
  | veryAggressive
  deriving DecidableEq, Repr

/-- `From<FastVadProfileConfig> for FastVadProfile` (vad.rs lines 65-74). -/
def FastVadProfile.ofConfig : FastVadProfileConfig → FastVadProfile
  | .quality => .quality
  | .lowBitrate => .lowBitrate
  | .aggressive => .aggressive
  | .veryAggressive => .veryAggressive

/-- The fields of `FastVadConfig` consumed by `FastVadSettings::from_config`;
the struct itself lives in `config.rs` (types read off the uses in vad.rs:
`u32` millisecond fields, `u32` window, `f32` thresholds). -/
structure FastVadConfig where
  enabled : Bool
  profile : FastVadProfileConfig
  min_speech_ms : ℕ
  silence_timeout_ms : ℕ
  pre_roll_ms : ℕ
  post_roll_ms : ℕ
  volatility_window : ℕ
  volatility_increase_threshold : ℚ
  volatility_decrease_threshold : ℚ

/-- `FastVadSettings` (vad.rs lines 87-97). -/
structure FastVadSettings where
  base_profile : FastVadProfile
  min_speech_frames : ℕ
  silence_timeout_frames : ℕ
  pre_roll_frames : ℕ
  post_roll_frames : ℕ
  volatility_window : ℕ
  volatility_increase_threshold : ℚ
  volatility_decrease_threshold : ℚ

/-- `FRAME_MS` (vad.rs line 11). -/
def FRAME_MS : ℕ := 30

/-- `MIN_VOLATILITY_DELTA` (vad.rs line 13), `0.01f32` as an exact rational. -/
def MIN_VOLATILITY_DELTA : ℚ := 1 / 100

/-- `MAX_VOLATILITY_WINDOW` (vad.rs line 14). -/
def MAX_VOLATILITY_WINDOW : ℕ := 480

/-- `f32::EPSILON` as an exact rational. -/
def F32_EPSILON : ℚ := 1 / 2 ^ 23

/-- Rust `u32::div_ceil` as used by the `ms_to_frames` closure. -/
def u32DivCeil (a b : ℕ) : ℕ := a / b + if a % b = 0 then 0 else 1

/-- The `ms_to_frames` closure of `FastVadSettings::from_config`
(vad.rs lines 101-106). -/
def msToFrames (ms : ℕ) : ℕ := if ms = 0 then 0 else u32DivCeil ms FRAME_MS

/-- Rust `f32::clamp`, over the rational model. -/
def clampQ (x lo hi : ℚ) : ℚ := min (max x lo) hi

/-- The threshold-sanitation block of `FastVadSettings::from_config`
(vad.rs lines 114-131): clamp both thresholds into [0,1] and, when the
increase threshold does not strictly exceed the decrease threshold, push
them apart; returns (decrease, increase). -/
def sanitizeThresholds (inc decr : ℚ) : ℚ × ℚ :=
  let it0 := clampQ inc 0 1
  let dt0 := clampQ decr 0 1
  if it0 ≤ dt0 then
    let ad0 := min dt0 (1 - MIN_VOLATILITY_DELTA)
    let ai0 := min (ad0 + MIN_VOLATILITY_DELTA) 1
    let ad1 := if ai0 ≤ ad0 then max (ad0 - MIN_VOLATILITY_DELTA) 0 else ad0
    let ai1 := if ai0 ≤ ad0 then min (ad1 + MIN_VOLATILITY_DELTA) 1 else ai0
    (ad1, min (max ai1 (ad1 + F32_EPSILON)) 1)
  else (dt0, it0)

/-- `FastVadSettings::from_config` (vad.rs lines 100-143). -/
def FastVadSettings.from_config (config : FastVadConfig) : FastVadSettings :=
  let min_speech_frames := max (msToFrames config.min_speech_ms) 1
  let silence_timeout_frames := max (msToFrames config.silence_timeout_ms) 1
  let pre_roll_frames := min (msToFrames config.pre_roll_ms) silence_timeout_frames
  let post_roll_frames := min (msToFrames config.post_roll_ms) silence_timeout_frames
  let volatility_window := min (max config.volatility_window 2) MAX_VOLATILITY_WINDOW
  let thresholds :=
    sanitizeThresholds config.volatility_increase_threshold
      config.volatility_decrease_threshold
  { base_profile := FastVadProfile.ofConfig config.profile
    min_speech_frames := min_speech_frames
    silence_timeout_frames := silence_timeout_frames
    pre_roll_frames := pre_roll_frames
    post_roll_frames := post_roll_frames
    volatility_window := volatility_window
    volatility_increase_threshold := thresholds.2
    volatility_decrease_threshold := thresholds.1 }

/-- `FastVad::frame_samples` (vad.rs lines 209-212). -/
def FastVad.frame_samples (sample_rate_hz : ℕ) : ℕ :=
  (sample_rate_hz * FRAME_MS + 999) / 1000

/-- Mutable state of a `trim` run: the local variables of the frame loop
(vad.rs lines 232-240) together with the `FastVad` fields that the loop
mutates (`current_profile`, `decision_history`, `profile_switches`). -/
structure TrimState (α : Type) where
  trimmed : List α
  active : List α
  pre_roll : List (List α)
  pending : List (List α × Bool)
  in_speech : Bool
  silence : ℕ
  evaluated : ℕ
  segments : ℕ
  profile : FastVadProfile
  history : List Bool
  switches : ℕ
  deriving Repr

/-- State at the top of `trim` after the reset block (vad.rs lines 226-240). -/
def TrimState.init (α : Type) (S : FastVadSettings) : TrimState α :=
  { trimmed := []
    active := []
    pre_roll := []
    pending := []
    in_speech := false
    silence := 0
    evaluated := 0
    segments := 0
    profile := S.base_profile
    history := []
    switches := 0 }

/-- `transitions` count of `FastVad::push_decision` (vad.rs lines 378-387):
number of adjacent pairs of the decision history that differ. -/
def transitions : List Bool → ℕ
  | [] => 0
  | [_] => 0
  | a :: b :: t => (if a = b then 0 else 1) + transitions (b :: t)

/-- The deque update of `FastVad::push_decision` (vad.rs lines 371-374):
push the new decision, then drop the oldest entry if the window overflows. -/
def pushDecision (window : ℕ) (hist : List Bool) (b : Bool) : List Bool :=
  let h := hist ++ [b]
  if window < h.length then h.tail else h

/-- The volatility value returned by `FastVad::push_decision`
(vad.rs lines 375-387). -/
def volatility (hist : List Bool) : ℚ :=
  if hist.length < 2 then 0
  else (transitions hist : ℚ) / ((hist.length - 1 : ℕ) : ℚ)

/-- `FastVad::set_profile` (vad.rs lines 404-413) acting on the
(profile, history, switches) triple; an actual change clears the decision
history and bumps the switch counter. -/
def setProfileT (p cur : FastVadProfile) (hist : List Bool) (switches : ℕ) :
    FastVadProfile × List Bool × ℕ :=
  if p = cur then (cur, hist, switches) else (p, [], switches + 1)

/-- `FastVad::adjust_profile` (vad.rs lines 390-402). -/
def adjustProfileT (S : FastVadSettings) (cur : FastVadProfile)
    (hist : List Bool) (switches : ℕ) (v : ℚ) :
    FastVadProfile × List Bool × ℕ :=
  if S.volatility_increase_threshold < v then
    match cur.more_aggressive with
    | some next => setProfileT next cur hist switches
    | none => (cur, hist, switches)
  else if v < S.volatility_decrease_threshold then
    match cur.less_aggressive with
    | some prev =>
        if S.base_profile.rank ≤ prev.rank then setProfileT prev cur hist switches
        else (cur, hist, switches)
    | none => (cur, hist, switches)
  else (cur, hist, switches)

/-- The per-frame controller work of the `trim` loop (vad.rs lines 247-248):
`push_decision` followed by `adjust_profile`. -/
def controlStep (S : FastVadSettings) (cur : FastVadProfile)
    (hist : List Bool) (switches : ℕ) (b : Bool) :
    FastVadProfile × List Bool × ℕ :=
  let h := pushDecision S.volatility_window hist b
  adjustProfileT S cur h switches (volatility h)

/-- The `pending_silence` drain pattern (vad.rs lines 254-260, 270-276,
309-315): append every pending silence frame not already appended. -/
def appendPending {α : Type} (active : List α) (pending : List (List α × Bool)) :
    List α :=
  active ++ (pending.filterMap fun p => if p.2 then none else some p.1).flatten

/-- `FastVad::push_pre_roll` (vad.rs lines 338-346). -/
def pushPreRoll {α : Type} (S : FastVadSettings) (pre_roll : List (List α))
    (frame : List α) : List (List α) :=
  if S.pre_roll_frames = 0 then pre_roll
  else
    let pr := if pre_roll.length = S.pre_roll_frames then pre_roll.tail else pre_roll
    pr ++ [frame]

/-- `FastVad::reseed_pre_roll` (vad.rs lines 354-368); the buffer is cleared
first, so only the result of the refill matters. -/
def reseedPreRoll {α : Type} (S : FastVadSettings)
    (pending : List (List α × Bool)) : List (List α) :=
  if S.pre_roll_frames == 0 || pending.isEmpty then []
  else
    let count := min pending.length S.pre_roll_frames
    let skip := pending.length - count
    (pending.drop skip).map Prod.fst

/-- `FastVad::min_speech_samples` (vad.rs lines 415-417). -/
def minSpeechSamples (S : FastVadSettings) (frame_samples : ℕ) : ℕ :=
  S.min_speech_frames * frame_samples

/-- The segmentation part of the `trim` loop body (vad.rs lines 250-306),
acting on one frame with its classification. -/
def segStep {α : Type} (S : FastVadSettings) (fs : ℕ) (s : TrimState α)
    (frame : List α) (is_speech : Bool) : TrimState α :=
  if s.in_speech = false then
    if is_speech then
      { s with
        in_speech := true
        active := appendPending (s.active ++ s.pre_roll.flatten) s.pending ++ frame
        pre_roll := []
        pending := []
        silence := 0 }
    else
      { s with pre_roll := pushPreRoll S s.pre_roll frame }
  else if is_speech then
    { s with
      active := appendPending s.active s.pending ++ frame
      pending := []
      silence := 0 }
  else
    let silence := s.silence + 1
    let appended : Bool := silence ≤ S.post_roll_frames
    let active := if appended then s.active ++ frame else s.active
    let pending := s.pending ++ [(frame, appended)]
    if S.silence_timeout_frames ≤ silence then
      let commit := !active.isEmpty && minSpeechSamples S fs ≤ active.length
      { s with
        trimmed := if commit then s.trimmed ++ active else s.trimmed
        segments := if commit then s.segments + 1 else s.segments
        active := []
        pre_roll := if pending.isEmpty then s.pre_roll else reseedPreRoll S pending
        pending := []
        in_speech := false
        silence := 0 }
    else
      { s with active := active, pending := pending, silence := silence }

/-- One full iteration of the `trim` loop (vad.rs lines 242-306) given the
classifier's decision for this frame: count the frame as evaluated, run the
volatility controller, then the segmentation state machine. -/
def stepFrame {α : Type} (S : FastVadSettings) (fs : ℕ) (s : TrimState α)
    (frame : List α) (b : Bool) : TrimState α :=
  let c := controlStep S s.profile s.history s.switches b
  segStep S fs
    { s with
      evaluated := s.evaluated + 1
      profile := c.1
      history := c.2.1
      switches := c.2.2 }
    frame b

/-- The `trim` frame loop: the classifier oracle `dec` gives the decision for
the i-th evaluated frame, `none` standing for a classification error, which
aborts the whole call (the `?` on `predict_frame`, vad.rs line 245). -/
def trimFrames {α : Type} (S : FastVadSettings) (fs : ℕ)
    (dec : ℕ → Option Bool) : List (List α) → TrimState α → Option (TrimState α)
  | [], s => some s
  | frame :: rest, s =>
    match dec s.evaluated with
    | none => none
    | some b => trimFrames S fs dec rest (stepFrame S fs s frame b)

/-- The end-of-stream flush (vad.rs lines 308-320). -/
def finalize {α : Type} (S : FastVadSettings) (fs : ℕ) (s : TrimState α) :
    TrimState α :=
  if s.in_speech then
    let active := appendPending s.active s.pending
    let commit := !active.isEmpty && minSpeechSamples S fs ≤ active.length
    { s with
      active := active
      pending := []
      trimmed := if commit then s.trimmed ++ active else s.trimmed
      segments := if commit then s.segments + 1 else s.segments }
  else s

/-- `audio.chunks(frame_samples)` with an explicit fuel argument (the input
length) so that the definition is structural; for `0 < fs` and
`l.length ≤ fuel` this is exactly Rust's `chunks`. -/
def chunksFuel {α : Type} (fs : ℕ) : ℕ → List α → List (List α)
  | 0, _ => []
  | _, [] => []
  | fuel + 1, a :: l => (a :: l).take fs :: chunksFuel fs fuel ((a :: l).drop fs)

/-- `audio.chunks(frame_samples)` as a list of frames. -/
def chunks {α : Type} (fs : ℕ) (l : List α) : List (List α) :=
  chunksFuel fs l.length l

/-- `FastVadOutcome` (vad.rs lines 467-475). -/
structure FastVadOutcome (α : Type) where
  trimmed_audio : List α
  segments : ℕ
  evaluated_frames : ℕ
  profile_switches : ℕ
  final_profile : FastVadProfile
  dropped_samples : ℕ
  deriving Repr

/-- `FastVad::trim` (vad.rs lines 214-332): chunk the input into frames,
run the loop with the classifier oracle, flush, and assemble the outcome
(`dropped_samples` is a saturating subtraction, which on `ℕ` is plain
subtraction). -/
def FastVad.trim (α : Type) (S : FastVadSettings) (fs : ℕ)
    (dec : ℕ → Option Bool) (audio : List α) : Option (FastVadOutcome α) :=
  if audio.isEmpty then
    some
      { trimmed_audio := []
        segments := 0
        evaluated_frames := 0
        profile_switches := 0
        final_profile := S.base_profile
        dropped_samples := 0 }
  else
    (trimFrames S fs dec (chunks fs audio) (TrimState.init α S)).map fun s₀ =>
      let s := finalize S fs s₀
      { trimmed_audio := s.trimmed
        segments := s.segments
        evaluated_frames := s.evaluated
        profile_switches := s.switches
        final_profile := s.profile
        dropped_samples := audio.length - s.trimmed.length }

/-! ### Concrete fixtures used by witnesses and counterexamples.
All frame sizes are 240 samples, i.e. 30 ms at the lowest supported sample
rate of 8 kHz (`FastVad::frame_samples 8000 = 240`); every configuration is
produced by `FastVadSettings.from_config`, hence reachable through the
public constructor path. -/

/-- A `FastVadConfig` with the given millisecond durations and a quiet
volatility controller (thresholds 1 and 0, so the profile never moves). -/
def testConfig (msp sil pre post : ℕ) : FastVadConfig :=
  { enabled := true
    profile := .quality
    min_speech_ms := msp
    silence_timeout_ms := sil
    pre_roll_ms := pre
    post_roll_ms := post
    volatility_window := 2
    volatility_increase_threshold := 1
    volatility_decrease_threshold := 0 }

/-- `n` frames of `fs` samples each, the samples of frame `i` all carrying
the tag `i`, so that the provenance of every output sample is visible. -/
def tagAudio (n fs : ℕ) : List ℕ :=
  ((List.range n).map fun i => List.replicate fs i).flatten

/-- Classifier oracle: speech on even frames (T F T F ...). -/
def decAlternating : ℕ → Option Bool := fun i => some (i % 2 == 0)

/-- Classifier oracle: speech exactly on frame 2. -/
def decOnlyFrame2 : ℕ → Option Bool := fun i => some (i == 2)

/-- Classifier oracle: speech exactly on frame 0. -/
def decOnlyFrame0 : ℕ → Option Bool := fun i => some (i == 0)

/-- Classifier oracle: silence everywhere. -/
def decAllSilence : ℕ → Option Bool := fun _ => some false

/-- Classifier oracle: speech everywhere. -/
def decAllSpeech : ℕ → Option Bool := fun _ => some true

/-- Classifier oracle that fails on every frame after frame 0. -/
def decFailAfter0 : ℕ → Option Bool := fun i => if i = 0 then some true else none

/-- Settings of `testConfig 30 30 30 30`: one frame each of minimum speech,
silence timeout, pre-roll and post-roll. -/
def settingsOneEach : FastVadSettings :=
  FastVadSettings.from_config (testConfig 30 30 30 30)

/-- Settings of `testConfig 90 60 60 60`: 3 frames of minimum speech, 2 of
silence timeout, pre-roll and post-roll capped at 2. -/
def settingsShortBurst : FastVadSettings :=
  FastVadSettings.from_config (testConfig 90 60 60 60)

/-- Settings of `testConfig 30 90 0 30`: timeout 3 frames, no pre-roll,
post-roll 1 frame. -/
def settingsLongTail : FastVadSettings :=
  FastVadSettings.from_config (testConfig 30 90 0 30)

/-- `x` is a concatenation of frames drawn from the frame universe `u`
(spec-side provenance predicate for the trimmed output). -/
def JoinOf {α : Type} (u : List (List α)) (x : List α) : Prop :=
  ∃ ls : List (List α), (∀ l ∈ ls, l ∈ u) ∧ x = ls.flatten

/-- All four sample buffers of a `trim` state are built from frames of the
universe `u`. -/
def BufInv {α : Type} (u : List (List α)) (s : TrimState α) : Prop :=
  JoinOf u s.trimmed ∧ JoinOf u s.active ∧
    (∀ l ∈ s.pre_roll, l ∈ u) ∧ (∀ p ∈ s.pending, p.1 ∈ u)

/-- Outcome of trimming a single all-silence 240-sample frame. -/
def outcomeSilentFrame : FastVadOutcome ℕ :=
  { trimmed_audio := []
    segments := 0
    evaluated_frames := 1
    profile_switches := 0
    final_profile := .quality
    dropped_samples := 240 }

/-- Loop state after trimming a single all-speech 240-sample frame with
`settingsOneEach`. -/
def endStateOneSpeech : TrimState ℕ :=
  { trimmed := []
    active := List.replicate 240 0
    pre_roll := []
    pending := []
    in_speech := true
    silence := 0
    evaluated := 1
    segments := 0
    profile := .quality
    history := [true]
    switches := 0 }

/-! ### Basic facts about the per-frame step -/

theorem segStep_profile {α : Type} (S : FastVadSettings) (fs : ℕ)
    (s : TrimState α) (f : List α) (b : Bool) :
    (segStep S fs s f b).profile = s.profile := by
  unfold segStep
  cases hs : s.in_speech <;> cases b <;> simp only [hs] <;> (repeat' split) <;> rfl

theorem segStep_evaluated {α : Type} (S : FastVadSettings) (fs : ℕ)
    (s : TrimState α) (f : List α) (b : Bool) :
    (segStep S fs s f b).evaluated = s.evaluated := by
  unfold segStep
  cases hs : s.in_speech <;> cases b <;> simp only [hs] <;> (repeat' split) <;> rfl

theorem stepFrame_profile {α : Type} (S : FastVadSettings) (fs : ℕ)
    (s : TrimState α) (f : List α) (b : Bool) :
    (stepFrame S fs s f b).profile =
      (controlStep S s.profile s.history s.switches b).1 := by
  unfold stepFrame
  exact segStep_profile S fs _ f b

theorem stepFrame_evaluated {α : Type} (S : FastVadSettings) (fs : ℕ)
    (s : TrimState α) (f : List α) (b : Bool) :
    (stepFrame S fs s f b).evaluated = s.evaluated + 1 := by
  unfold stepFrame
  exact segStep_evaluated S fs _ f b

theorem rank_le_three (p : FastVadProfile) : p.rank ≤ 3 := by
  cases p <;> simp [FastVadProfile.rank]

theorem adjustProfileT_rank_bounds (S : FastVadSettings) (cur : FastVadProfile)
    (hist : List Bool) (switches : ℕ) (v : ℚ)
    (h : S.base_profile.rank ≤ cur.rank) :
    S.base_profile.rank ≤ (adjustProfileT S cur hist switches v).1.rank ∧
      (adjustProfileT S cur hist switches v).1.rank ≤ 3 := by
  unfold adjustProfileT setProfileT
  cases cur <;>
    simp only [FastVadProfile.more_aggressive, FastVadProfile.less_aggressive,
      FastVadProfile.rank] at h ⊢ <;>
    split_ifs <;> simp_all [FastVadProfile.rank] <;> omega

/-! ### C6: profile rank bounds -/

/-- C6: throughout a `trim` call the active profile stays within bounds:
whenever the current profile ranks at least as high as the configured base
profile (true of the initial state, whose profile is the base profile),
after the per-frame profile adjustment of `stepFrame` it still ranks at
least the base profile and at most `VeryAggressive` (rank 3). -/
theorem stepFrame_profile_rank_bounds {α : Type} (S : FastVadSettings)
    (fs : ℕ) (s : TrimState α) (f : List α) (b : Bool)
    (h : S.base_profile.rank ≤ s.profile.rank) :
    S.base_profile.rank ≤ (stepFrame S fs s f b).profile.rank ∧
      (stepFrame S fs s f b).profile.rank ≤ 3 := by
  rw [stepFrame_profile]
  exact adjustProfileT_rank_bounds S s.profile _ s.switches _ h

theorem stepFrame_profile_rank_bounds_witness :
    settingsOneEach.base_profile.rank ≤
        (TrimState.init ℕ settingsOneEach).profile.rank ∧
      (settingsOneEach.base_profile.rank ≤
          (stepFrame settingsOneEach 240 (TrimState.init ℕ settingsOneEach)
              (List.replicate 240 0) true).profile.rank ∧
        (stepFrame settingsOneEach 240 (TrimState.init ℕ settingsOneEach)
            (List.replicate 240 0) true).profile.rank ≤ 3) :=
  ⟨le_refl _,
    stepFrame_profile_rank_bounds settingsOneEach 240
      (TrimState.init ℕ settingsOneEach) (List.replicate 240 0) true
      (le_refl _)⟩

/-! ### C8: threshold sanitation -/

theorem sanitizeThresholds_bounds (inc decr : ℚ) :
    0 ≤ (sanitizeThresholds inc decr).1 ∧
      (sanitizeThresholds inc decr).1 < (sanitizeThresholds inc decr).2 ∧
      (sanitizeThresholds inc decr).2 ≤ 1 := by
  have hd0 : (0 : ℚ) ≤ min (max decr 0) 1 := le_min (le_max_right _ _) (by norm_num)
  have hi1 : min (max inc 0) 1 ≤ (1 : ℚ) := min_le_right _ _
  have ha0 : (0 : ℚ) ≤ min (min (max decr 0) 1) (1 - 1 / 100) :=
    le_min hd0 (by norm_num)
  have ha1 : min (min (max decr 0) 1) (1 - 1 / 100) ≤ (1 : ℚ) - 1 / 100 :=
    min_le_right _ _
  unfold sanitizeThresholds clampQ MIN_VOLATILITY_DELTA F32_EPSILON
  dsimp only
  split_ifs with h1 h2
  · exact ⟨le_max_right _ _,
      lt_min (lt_of_lt_of_le (lt_add_of_pos_right _ (by norm_num)) (le_max_right _ _))
        (max_lt (by linarith) (by norm_num)),
      min_le_right _ _⟩
  · exact ⟨ha0,
      lt_min (lt_of_lt_of_le (lt_add_of_pos_right _ (by norm_num)) (le_max_right _ _))
        (by linarith),
      min_le_right _ _⟩
  · exact ⟨hd0, not_le.mp h1, hi1⟩

/-- C8: for every configuration, including `decrease ≥ increase`,
`FastVadSettings::from_config` (a total function, so it cannot panic)
yields thresholds with `0 ≤ decrease < increase ≤ 1`, keeping the
volatility controller escalation-capable. -/
theorem from_config_threshold_sanitation (c : FastVadConfig) :
    0 ≤ (FastVadSettings.from_config c).volatility_decrease_threshold ∧
      (FastVadSettings.from_config c).volatility_decrease_threshold <
        (FastVadSettings.from_config c).volatility_increase_threshold ∧
      (FastVadSettings.from_config c).volatility_increase_threshold ≤ 1 :=
  sanitizeThresholds_bounds c.volatility_increase_threshold
    c.volatility_decrease_threshold

/-! ### C7: millisecond-to-frame conversion -/

theorem msToFrames_eq_ceil (ms : ℕ) : msToFrames ms = (ms + 29) / 30 := by
  unfold msToFrames u32DivCeil FRAME_MS
  by_cases h : ms = 0
  · subst h; rfl
  · simp only [h, if_false]
    by_cases h2 : ms % 30 = 0 <;> simp only [h2, if_true, if_false] <;> omega

/-- C7 counterexample: with `pre_roll_ms = 0` the derived `pre_roll_frames`
is 0, not "at least 1"; and with `pre_roll_ms = 300` but
`silence_timeout_ms = 30` it is capped at 1, not the ceiling 10. -/
theorem from_config_frame_counts_cex :
    (FastVadSettings.from_config (testConfig 90 60 0 60)).pre_roll_frames = 0 ∧
      (FastVadSettings.from_config (testConfig 90 30 300 60)).pre_roll_frames = 1 ∧
      u32DivCeil 300 FRAME_MS = 10 :=
  ⟨rfl, rfl, rfl⟩

/-- C7 (amended): `min_speech_frames` and `silence_timeout_frames` are the
30 ms ceiling of the configured milliseconds floored at 1, while
`pre_roll_frames` and `post_roll_frames` are the plain ceiling (0 when the
configured value is 0) capped at `silence_timeout_frames`, with no floor. -/
theorem from_config_frame_counts (c : FastVadConfig) :
    (FastVadSettings.from_config c).min_speech_frames =
        max ((c.min_speech_ms + 29) / 30) 1 ∧
      (FastVadSettings.from_config c).silence_timeout_frames =
        max ((c.silence_timeout_ms + 29) / 30) 1 ∧
      (FastVadSettings.from_config c).pre_roll_frames =
        min ((c.pre_roll_ms + 29) / 30)
          (FastVadSettings.from_config c).silence_timeout_frames ∧
      (FastVadSettings.from_config c).post_roll_frames =
        min ((c.post_roll_ms + 29) / 30)
          (FastVadSettings.from_config c).silence_timeout_frames ∧
      1 ≤ (FastVadSettings.from_config c).min_speech_frames ∧
      1 ≤ (FastVadSettings.from_config c).silence_timeout_frames := by
  have hmin : (FastVadSettings.from_config c).min_speech_frames =
      max ((c.min_speech_ms + 29) / 30) 1 := by
    show max (msToFrames c.min_speech_ms) 1 = _
    rw [msToFrames_eq_ceil]
  have hsil : (FastVadSettings.from_config c).silence_timeout_frames =
      max ((c.silence_timeout_ms + 29) / 30) 1 := by
    show max (msToFrames c.silence_timeout_ms) 1 = _
    rw [msToFrames_eq_ceil]
  have hpre : (FastVadSettings.from_config c).pre_roll_frames =
      min ((c.pre_roll_ms + 29) / 30)
        (FastVadSettings.from_config c).silence_timeout_frames := by
    show min (msToFrames c.pre_roll_ms)
        ((FastVadSettings.from_config c).silence_timeout_frames) = _
    rw [msToFrames_eq_ceil]
  have hpost : (FastVadSettings.from_config c).post_roll_frames =
      min ((c.post_roll_ms + 29) / 30)
        (FastVadSettings.from_config c).silence_timeout_frames := by
    show min (msToFrames c.post_roll_ms)
        ((FastVadSettings.from_config c).silence_timeout_frames) = _
    rw [msToFrames_eq_ceil]
  refine ⟨hmin, hsil, hpre, hpost, ?_, ?_⟩
  · rw [hmin]; exact le_max_right _ _
  · rw [hsil]; exact le_max_right _ _

/-! ### C10: pre-roll capping -/

theorem pushPreRoll_length_le {α : Type} (S : FastVadSettings)
    (pr : List (List α)) (f : List α) (h : pr.length ≤ S.pre_roll_frames) :
    (pushPreRoll S pr f).length ≤ S.pre_roll_frames := by
  unfold pushPreRoll
  split
  · exact h
  · split
    · rename_i h0 hlen
      simp only [List.length_append, List.length_tail, List.length_cons,
        List.length_nil]
      omega
    · rename_i h0 hlen
      simp only [List.length_append, List.length_cons, List.length_nil]
      omega

theorem reseedPreRoll_length_le {α : Type} (S : FastVadSettings)
    (pending : List (List α × Bool)) :
    (reseedPreRoll S pending).length ≤ S.pre_roll_frames := by
  unfold reseedPreRoll
  split
  · rename_i h
    simp only [List.length_nil]
    rw [Bool.or_eq_true, beq_iff_eq] at h
    rcases h with h | h
    · omega
    · exact Nat.zero_le _
  · simp only [List.length_map, List.length_drop]
    omega

/-- C10: `from_config` caps `pre_roll_frames` at `silence_timeout_frames`,
and both ways of filling the pre-roll buffer (`push_pre_roll` while the
buffer is within its bound, and `reseed_pre_roll`) keep its length at most
`pre_roll_frames`, so the pre-speech context `flush_pre_roll` prepends to a
segment never exceeds `silence_timeout_frames` frames. -/
theorem from_config_pre_roll_capped (c : FastVadConfig)
    (pr : List (List ℕ)) (f : List ℕ) (pending : List (List ℕ × Bool))
    (hpr : pr.length ≤ (FastVadSettings.from_config c).pre_roll_frames) :
    (FastVadSettings.from_config c).pre_roll_frames ≤
        (FastVadSettings.from_config c).silence_timeout_frames ∧
      (pushPreRoll (FastVadSettings.from_config c) pr f).length ≤
        (FastVadSettings.from_config c).pre_roll_frames ∧
      (reseedPreRoll (FastVadSettings.from_config c) pending).length ≤
        (FastVadSettings.from_config c).pre_roll_frames := by
  refine ⟨?_, pushPreRoll_length_le _ pr f hpr, reseedPreRoll_length_le _ pending⟩
  show min (msToFrames c.pre_roll_ms)
      ((FastVadSettings.from_config c).silence_timeout_frames) ≤ _
  exact min_le_right _ _

theorem from_config_pre_roll_capped_witness :
    (([] : List (List ℕ)).length ≤
        (FastVadSettings.from_config (testConfig 90 60 60 60)).pre_roll_frames) ∧
      ((FastVadSettings.from_config (testConfig 90 60 60 60)).pre_roll_frames ≤
          (FastVadSettings.from_config (testConfig 90 60 60 60)).silence_timeout_frames ∧
        (pushPreRoll (FastVadSettings.from_config (testConfig 90 60 60 60)) []
            (List.replicate 240 0)).length ≤
          (FastVadSettings.from_config (testConfig 90 60 60 60)).pre_roll_frames ∧
        (reseedPreRoll (FastVadSettings.from_config (testConfig 90 60 60 60))
            ([] : List (List ℕ × Bool))).length ≤
          (FastVadSettings.from_config (testConfig 90 60 60 60)).pre_roll_frames) :=
  ⟨Nat.zero_le _,
    from_config_pre_roll_capped (testConfig 90 60 60 60) [] (List.replicate 240 0)
      [] (Nat.zero_le _)⟩

/-! ### C5: pure silence -/

theorem stepFrame_silence_fields {α : Type} (S : FastVadSettings) (fs : ℕ)
    (s : TrimState α) (f : List α) (hs : s.in_speech = false) :
    (stepFrame S fs s f false).in_speech = false ∧
      (stepFrame S fs s f false).trimmed = s.trimmed ∧
      (stepFrame S fs s f false).active = s.active ∧
      (stepFrame S fs s f false).segments = s.segments ∧
      (stepFrame S fs s f false).pending = s.pending := by
  unfold stepFrame segStep
  simp [hs]

theorem finalize_not_in_speech {α : Type} (S : FastVadSettings) (fs : ℕ)
    (s : TrimState α) (hs : s.in_speech = false) : finalize S fs s = s := by
  unfold finalize
  simp [hs]

theorem trimFrames_all_silence {α : Type} (S : FastVadSettings) (fs : ℕ)
    (dec : ℕ → Option Bool) (hdec : ∀ i, dec i = some false) :
    ∀ (fl : List (List α)) (s : TrimState α), s.in_speech = false →
      ∃ s', trimFrames S fs dec fl s = some s' ∧ s'.in_speech = false ∧
        s'.trimmed = s.trimmed ∧ s'.active = s.active ∧
        s'.segments = s.segments ∧ s'.pending = s.pending := by
  intro fl
  induction fl with
  | nil =>
    intro s hs
    exact ⟨s, rfl, hs, rfl, rfl, rfl, rfl⟩
  | cons f rest ih =>
    intro s hs
    obtain ⟨hin, htr, hac, hseg, hpend⟩ := stepFrame_silence_fields S fs s f hs
    obtain ⟨s', hrun, h1, h2, h3, h4, h5⟩ := ih (stepFrame S fs s f false) hin
    refine ⟨s', ?_, h1, ?_, ?_, ?_, ?_⟩
    · simp only [trimFrames, hdec s.evaluated]
      exact hrun
    · rw [h2, htr]
    · rw [h3, hac]
    · rw [h4, hseg]
    · rw [h5, hpend]

/-- C5: for every input all of whose frames are classified non-speech,
`trim` returns an empty trimmed buffer, zero segments, and
`dropped_samples` equal to the input length. -/
theorem trim_all_silence (α : Type) (S : FastVadSettings) (fs : ℕ)
    (dec : ℕ → Option Bool) (audio : List α)
    (hdec : ∀ i, dec i = some false) (hne : audio ≠ []) :
    (FastVad.trim α S fs dec audio).map
        (fun o => (o.trimmed_audio, o.segments, o.dropped_samples)) =
      some ([], 0, audio.length) := by
  have hempty : audio.isEmpty = false := by
    cases audio with
    | nil => exact absurd rfl hne
    | cons a l => rfl
  unfold FastVad.trim
  rw [hempty]
  simp only [Bool.false_eq_true, if_false]
  obtain ⟨s', hrun, hin, htr, hac, hseg, hpend⟩ :=
    trimFrames_all_silence S fs dec hdec (chunks fs audio) (TrimState.init α S) rfl
  rw [hrun]
  simp only [Option.map_some', Option.map_map, Option.some.injEq]
  rw [finalize_not_in_speech S fs s' hin]
  rw [htr, hseg]
  simp [TrimState.init]

theorem trim_all_silence_witness :
    ((∀ i, decAllSilence i = some false) ∧ tagAudio 1 240 ≠ []) ∧
      (FastVad.trim ℕ settingsOneEach 240 decAllSilence (tagAudio 1 240)).map
          (fun o => (o.trimmed_audio, o.segments, o.dropped_samples)) =
        some ([], 0, (tagAudio 1 240).length) :=
  ⟨⟨fun _ => rfl, by decide⟩,
    trim_all_silence ℕ settingsOneEach 240 decAllSilence (tagAudio 1 240)
      (fun _ => rfl) (by decide)⟩

/-! ### C9: classifier failure aborts the call -/

theorem trimFrames_abort {α : Type} (S : FastVadSettings) (fs : ℕ)
    (dec : ℕ → Option Bool) :
    ∀ (fl : List (List α)) (s : TrimState α) (k : ℕ), k < fl.length →
      dec (s.evaluated + k) = none → (∀ j, j < k → dec (s.evaluated + j) ≠ none) →
      trimFrames S fs dec fl s = none := by
  intro fl
  induction fl with
  | nil =>
    intro s k hk
    simp at hk
  | cons f rest ih =>
    intro s k hk hfail hpre
    cases hd : dec s.evaluated with
    | none => simp only [trimFrames, hd]
    | some b =>
      cases k with
      | zero =>
        rw [Nat.add_zero, hd] at hfail
        exact absurd hfail (by simp)
      | succ k' =>
        simp only [trimFrames, hd]
        apply ih (stepFrame S fs s f b) k'
        · have : rest.length + 1 = (f :: rest).length := by simp
          omega
        · rw [stepFrame_evaluated]
          have he : s.evaluated + 1 + k' = s.evaluated + (k' + 1) := by omega
          rw [he]
          exact hfail
        · intro j hj
          rw [stepFrame_evaluated]
          have he : s.evaluated + 1 + j = s.evaluated + (j + 1) := by omega
          rw [he]
          exact hpre (j + 1) (by omega)

/-- C9: if the classifier fails on frame `k` (and succeeded on every earlier
frame), `trim` returns the error (`none`) rather than an outcome — the
failed frame is not treated as non-speech — and the result is the same for
every classifier agreeing up to frame `k`, i.e. frames after the failing
one are never consulted. -/
theorem trim_classifier_error_aborts (α : Type) (S : FastVadSettings)
    (fs : ℕ) (dec : ℕ → Option Bool) (audio : List α) (k : ℕ)
    (hne : audio ≠ []) (hk : k < (chunks fs audio).length)
    (hfail : dec k = none) (hpre : ∀ j, j < k → dec j ≠ none) :
    FastVad.trim α S fs dec audio = none ∧
      ∀ dec' : ℕ → Option Bool, (∀ j, j ≤ k → dec' j = dec j) →
        FastVad.trim α S fs dec' audio = none := by
  have hempty : audio.isEmpty = false := by
    cases audio with
    | nil => exact absurd rfl hne
    | cons a l => rfl
  have habort : ∀ d : ℕ → Option Bool, d k = none → (∀ j, j < k → d j ≠ none) →
      FastVad.trim α S fs d audio = none := by
    intro d hdk hdpre
    unfold FastVad.trim
    rw [hempty]
    simp only [Bool.false_eq_true, if_false]
    rw [trimFrames_abort S fs d (chunks fs audio) (TrimState.init α S) k hk
      (by show d (0 + k) = none; rw [Nat.zero_add]; exact hdk)
      (fun j hj => by show d (0 + j) ≠ none; rw [Nat.zero_add]; exact hdpre j hj)]
    rfl
  refine ⟨habort dec hfail hpre, fun dec' hagree => habort dec' ?_ ?_⟩
  · rw [hagree k le_rfl]
    exact hfail
  · intro j hj
    rw [hagree j (le_of_lt hj)]
    exact hpre j hj

theorem trim_classifier_error_aborts_witness :
    (tagAudio 2 240 ≠ [] ∧ 1 < (chunks 240 (tagAudio 2 240)).length ∧
        decFailAfter0 1 = none ∧ ∀ j, j < 1 → decFailAfter0 j ≠ none) ∧
      (FastVad.trim ℕ settingsOneEach 240 decFailAfter0 (tagAudio 2 240) = none ∧
        ∀ dec' : ℕ → Option Bool, (∀ j, j ≤ 1 → dec' j = decFailAfter0 j) →
          FastVad.trim ℕ settingsOneEach 240 dec' (tagAudio 2 240) = none) :=
  ⟨⟨by decide, by decide, rfl,
     fun j hj => by
       have h0 : j = 0 := by omega
       subst h0
       simp [decFailAfter0]⟩,
    trim_classifier_error_aborts ℕ settingsOneEach 240 decFailAfter0
      (tagAudio 2 240) 1 (by decide) (by decide) rfl
      (fun j hj => by
        have h0 : j = 0 := by omega
        subst h0
        simp [decFailAfter0])⟩

/-! ### C1: dropped-sample accounting -/

/-- C1 counterexample: with all four durations at one frame (from_config of
30 ms each, reachable) and decisions T F T F on a four-frame (960-sample)
input, the closing-gap frame is committed as post-roll padding and then
reseeded into the pre-roll and emitted again, so the output holds 1200
samples, `dropped_samples` saturates to 0, and
`dropped_samples + trimmed_audio.len() = 1200 ≠ 960 = input.len()`. -/
theorem trim_dropped_accounting_cex :
    (FastVad.trim ℕ settingsOneEach 240 decAlternating (tagAudio 4 240)).map
        (fun o => (o.dropped_samples, o.trimmed_audio.length)) =
      some (0, 1200) ∧
      (tagAudio 4 240).length = 960 ∧ (0 + 1200 : ℕ) ≠ 960 :=
  ⟨rfl, rfl, by decide⟩

/-- C1 (amended): whenever the returned trimmed buffer is no longer than the
input — which can only fail when `pre_roll_frames + post_roll_frames >
silence_timeout_frames` lets a closing-gap frame be emitted twice — the
accounting identity `dropped_samples + trimmed_audio.len() = input.len()`
holds (in general `dropped_samples` is the saturating difference). -/
theorem trim_dropped_accounting (α : Type) (S : FastVadSettings) (fs : ℕ)
    (dec : ℕ → Option Bool) (audio : List α) (out : FastVadOutcome α)
    (h : FastVad.trim α S fs dec audio = some out)
    (hle : out.trimmed_audio.length ≤ audio.length) :
    out.dropped_samples + out.trimmed_audio.length = audio.length := by
  unfold FastVad.trim at h
  cases he : audio.isEmpty with
  | true =>
    rw [he] at h
    simp only [if_true] at h
    have haud : audio = [] := by
      cases audio with
      | nil => rfl
      | cons a l => exact absurd he (by simp)
    obtain rfl := (Option.some.injEq _ _).mp h
    simp [haud]
  | false =>
    rw [he] at h
    simp only [Bool.false_eq_true, if_false] at h
    obtain ⟨s', hs', hout⟩ := Option.map_eq_some'.mp h
    subst hout
    simp only at hle ⊢
    exact Nat.sub_add_cancel hle

theorem trim_dropped_accounting_witness :
    (FastVad.trim ℕ settingsOneEach 240 decAllSilence (tagAudio 1 240) =
        some outcomeSilentFrame ∧
      outcomeSilentFrame.trimmed_audio.length ≤ (tagAudio 1 240).length) ∧
      outcomeSilentFrame.dropped_samples +
          outcomeSilentFrame.trimmed_audio.length = (tagAudio 1 240).length :=
  ⟨⟨rfl, by decide⟩,
    trim_dropped_accounting ℕ settingsOneEach 240 decAllSilence (tagAudio 1 240)
      outcomeSilentFrame rfl (by decide)⟩

/-! ### C2: order preservation / no duplication -/

/-- C2 counterexample: same run as the C1 counterexample; the input holds
240 samples of tag 1 (the second frame), but the output holds 480 of them:
the closing-gap frame is emitted once as post-roll padding of the first
segment and once more as reseeded pre-roll of the second, so the
concatenated output is not a duplicate-free subsequence of the input. -/
theorem trim_subsequence_cex :
    (FastVad.trim ℕ settingsOneEach 240 decAlternating (tagAudio 4 240)).map
        (fun o => o.trimmed_audio.count 1) = some 480 ∧
      (tagAudio 4 240).count 1 = 240 :=
  ⟨rfl, rfl⟩

/-! ### C3: short-burst rejection -/

/-- C3 counterexample: settings from_config(90,60,60,60) give
`min_speech_frames = 3`, timeout/pre/post of 2 frames; the decisions
F F T F F contain a single maximal speech run (frame 2) of length 1 < 3
followed by silence, yet one segment is committed and the run's samples
(tag 2) appear in the output: the pre/post-roll padding pushed the
candidate segment (5 frames) over the `min_speech_samples` bar. -/
theorem trim_short_burst_cex :
    settingsShortBurst.min_speech_frames = 3 ∧
      (FastVad.trim ℕ settingsShortBurst 240 decOnlyFrame2 (tagAudio 5 240)).map
          (fun o => (o.segments, o.trimmed_audio.count 2)) = some (1, 240) :=
  ⟨rfl, rfl⟩

/-! ### C4: end-of-stream flush -/

/-- C4 counterexample: settings from_config(30,90,0,30) give
`post_roll_frames = 1` and `silence_timeout_frames = 3`; with decisions
T F F the stream ends inside a committed segment with two trailing-silence
frames accumulated, and the end-of-stream flush emits both of them (720
output samples, including the tag-2 frame that lies beyond the post-roll
allowance), not at most `post_roll_frames = 1`. -/
theorem trim_post_roll_flush_cex :
    settingsLongTail.post_roll_frames = 1 ∧
      settingsLongTail.silence_timeout_frames = 3 ∧
      (FastVad.trim ℕ settingsLongTail 240 decOnlyFrame0 (tagAudio 3 240)).map
          (fun o => (o.trimmed_audio.length, o.trimmed_audio.count 2)) =
        some (720, 240) :=
  ⟨rfl, rfl, rfl⟩


theorem segStep_pending_bound {α : Type} (S : FastVadSettings) (fs : ℕ)
    (s : TrimState α) (f : List α) (b : Bool)
    (htm : 1 ≤ S.silence_timeout_frames)
    (h : s.in_speech = true →
      s.pending.length = s.silence ∧ s.silence < S.silence_timeout_frames) :
    (segStep S fs s f b).in_speech = true →
      (segStep S fs s f b).pending.length = (segStep S fs s f b).silence ∧
        (segStep S fs s f b).silence < S.silence_timeout_frames := by
  unfold segStep
  cases hs : s.in_speech <;> cases b <;>
    simp only [hs, Bool.false_eq_true, Bool.true_eq_false, eq_self_iff_true,
      ite_true, ite_false]
  · exact fun h2 => h2.elim
  · exact fun _ => ⟨rfl, htm⟩
  · obtain ⟨hlen, hsil⟩ := h hs
    split
    · intro h2
      simp at h2
    · rename_i hto
      intro _
      dsimp only
      constructor
      · simp only [List.length_append, List.length_cons, List.length_nil]
        omega
      · omega
  · exact fun _ => ⟨rfl, htm⟩

theorem stepFrame_pending_bound {α : Type} (S : FastVadSettings) (fs : ℕ)
    (s : TrimState α) (f : List α) (b : Bool)
    (htm : 1 ≤ S.silence_timeout_frames)
    (h : s.in_speech = true →
      s.pending.length = s.silence ∧ s.silence < S.silence_timeout_frames) :
    (stepFrame S fs s f b).in_speech = true →
      (stepFrame S fs s f b).pending.length = (stepFrame S fs s f b).silence ∧
        (stepFrame S fs s f b).silence < S.silence_timeout_frames := by
  unfold stepFrame
  exact segStep_pending_bound S fs _ f b htm h

theorem trimFrames_pending_bound {α : Type} (S : FastVadSettings) (fs : ℕ)
    (dec : ℕ → Option Bool) (htm : 1 ≤ S.silence_timeout_frames) :
    ∀ (fl : List (List α)) (s : TrimState α),
      (s.in_speech = true →
        s.pending.length = s.silence ∧ s.silence < S.silence_timeout_frames) →
      ∀ s', trimFrames S fs dec fl s = some s' →
        (s'.in_speech = true →
          s'.pending.length = s'.silence ∧ s'.silence < S.silence_timeout_frames) := by
  intro fl
  induction fl with
  | nil =>
    intro s h s' hrun
    obtain rfl := (Option.some.injEq _ _).mp hrun
    exact h
  | cons f rest ih =>
    intro s h s' hrun
    cases hd : dec s.evaluated with
    | none => simp [trimFrames, hd] at hrun
    | some b =>
      simp only [trimFrames, hd] at hrun
      exact ih (stepFrame S fs s f b)
        (stepFrame_pending_bound S fs s f b htm h) s' hrun

/-- C4 (amended): if processing ends while still in a committed (active)
speech segment, the end-of-stream flush (vad.rs 308-320) drains every
pending trailing-silence frame into the segment — not only the first
`post_roll_frames` of them; what bounds the flushed trailing silence is
the silence timeout: the pending buffer of the final loop state holds
exactly `silence_frames` frames, which is always strictly less than
`silence_timeout_frames`. -/
theorem trim_end_of_stream_pending_bound (α : Type) (S : FastVadSettings)
    (fs : ℕ) (dec : ℕ → Option Bool) (audio : List α) (s : TrimState α)
    (htm : 1 ≤ S.silence_timeout_frames)
    (hrun : trimFrames S fs dec (chunks fs audio) (TrimState.init α S) = some s)
    (hin : s.in_speech = true) :
    s.pending.length = s.silence ∧ s.silence < S.silence_timeout_frames :=
  trimFrames_pending_bound S fs dec htm (chunks fs audio) (TrimState.init α S)
    (fun hcontra => by simp [TrimState.init] at hcontra) s hrun hin

theorem trim_end_of_stream_pending_bound_witness :
    (1 ≤ settingsOneEach.silence_timeout_frames ∧
        trimFrames settingsOneEach 240 decAllSpeech
            (chunks 240 (tagAudio 1 240)) (TrimState.init ℕ settingsOneEach) =
          some endStateOneSpeech ∧
        endStateOneSpeech.in_speech = true) ∧
      endStateOneSpeech.pending.length = endStateOneSpeech.silence ∧
        endStateOneSpeech.silence < settingsOneEach.silence_timeout_frames :=
  ⟨⟨by decide, rfl, rfl⟩,
    trim_end_of_stream_pending_bound ℕ settingsOneEach 240 decAllSpeech
      (tagAudio 1 240) endStateOneSpeech (by decide) rfl rfl⟩

theorem segStep_min_length {α : Type} (S : FastVadSettings) (fs : ℕ)
    (s : TrimState α) (f : List α) (b : Bool)
    (h : s.segments * minSpeechSamples S fs ≤ s.trimmed.length) :
    (segStep S fs s f b).segments * minSpeechSamples S fs ≤
      (segStep S fs s f b).trimmed.length := by
  unfold segStep
  cases hs : s.in_speech <;> cases b <;>
    simp only [hs, Bool.false_eq_true, Bool.true_eq_false, eq_self_iff_true,
      ite_true, ite_false]
  · exact h
  · exact h
  · split
    · dsimp only
      split <;> split
      all_goals
        first
          | exact h
          | (rename_i hc
             rw [Bool.and_eq_true, decide_eq_true_eq] at hc
             rw [List.length_append, Nat.succ_mul]
             exact Nat.add_le_add h hc.2)
    · exact h
  · exact h

theorem finalize_min_length {α : Type} (S : FastVadSettings) (fs : ℕ)
    (s : TrimState α)
    (h : s.segments * minSpeechSamples S fs ≤ s.trimmed.length) :
    (finalize S fs s).segments * minSpeechSamples S fs ≤
      (finalize S fs s).trimmed.length := by
  unfold finalize
  split
  · dsimp only
    split
    · rename_i hc
      rw [Bool.and_eq_true, decide_eq_true_eq] at hc
      rw [List.length_append, Nat.succ_mul]
      exact Nat.add_le_add h hc.2
    · exact h
  · exact h

theorem trimFrames_min_length {α : Type} (S : FastVadSettings) (fs : ℕ)
    (dec : ℕ → Option Bool) :
    ∀ (fl : List (List α)) (s : TrimState α),
      s.segments * minSpeechSamples S fs ≤ s.trimmed.length →
      ∀ s', trimFrames S fs dec fl s = some s' →
        s'.segments * minSpeechSamples S fs ≤ s'.trimmed.length := by
  intro fl
  induction fl with
  | nil =>
    intro s h s' hrun
    obtain rfl := (Option.some.injEq _ _).mp hrun
    exact h
  | cons f rest ih =>
    intro s h s' hrun
    cases hd : dec s.evaluated with
    | none => simp [trimFrames, hd] at hrun
    | some b =>
      simp only [trimFrames, hd] at hrun
      refine ih (stepFrame S fs s f b) ?_ s' hrun
      unfold stepFrame
      exact segStep_min_length S fs _ f b h

/-- C3 (amended): `trim` commits a candidate segment only when its total
accumulated length — the speech run together with any pre-roll context and
trailing-silence padding — reaches `min_speech_samples`; hence each of the
`segments` committed blocks holds at least `min_speech_frames * frame_samples`
samples: `segments * min_speech_samples ≤ trimmed_audio.len()`. (A speech
run shorter than `min_speech_frames` can still be committed when padding
pushes its candidate over this bar, as the counterexample shows; with no
pre/post-roll padding a short run alone never reaches it.) -/
theorem trim_min_segment_length (α : Type) (S : FastVadSettings) (fs : ℕ)
    (dec : ℕ → Option Bool) (audio : List α) (out : FastVadOutcome α)
    (h : FastVad.trim α S fs dec audio = some out) :
    out.segments * minSpeechSamples S fs ≤ out.trimmed_audio.length := by
  unfold FastVad.trim at h
  cases he : audio.isEmpty with
  | true =>
    rw [he] at h
    simp only [if_true] at h
    obtain rfl := (Option.some.injEq _ _).mp h
    simp
  | false =>
    rw [he] at h
    simp only [Bool.false_eq_true, if_false] at h
    obtain ⟨s', hs', hout⟩ := Option.map_eq_some'.mp h
    subst hout
    dsimp only
    refine finalize_min_length S fs s' ?_
    refine trimFrames_min_length S fs dec (chunks fs audio) (TrimState.init α S)
      ?_ s' hs'
    simp [TrimState.init]

theorem trim_min_segment_length_witness :
    FastVad.trim ℕ settingsShortBurst 240 decAllSilence (tagAudio 1 240) =
        some outcomeSilentFrame ∧
      outcomeSilentFrame.segments * minSpeechSamples settingsShortBurst 240 ≤
        outcomeSilentFrame.trimmed_audio.length :=
  ⟨rfl,
    trim_min_segment_length ℕ settingsShortBurst 240 decAllSilence
      (tagAudio 1 240) outcomeSilentFrame rfl⟩

theorem joinOf_nil {α : Type} (u : List (List α)) : JoinOf u [] :=
  ⟨[], by simp, rfl⟩

theorem joinOf_frame {α : Type} {u : List (List α)} {f : List α} (hf : f ∈ u) :
    JoinOf u f := ⟨[f], by simp [hf], by simp⟩

theorem joinOf_append {α : Type} {u : List (List α)} {x y : List α}
    (hx : JoinOf u x) (hy : JoinOf u y) : JoinOf u (x ++ y) := by
  obtain ⟨l1, h1, e1⟩ := hx
  obtain ⟨l2, h2, e2⟩ := hy
  refine ⟨l1 ++ l2, ?_, ?_⟩
  · intro l hl
    rcases List.mem_append.mp hl with h | h
    · exact h1 l h
    · exact h2 l h
  · rw [e1, e2, List.flatten_append]

theorem joinOf_flatten {α : Type} {u ls : List (List α)}
    (h : ∀ l ∈ ls, l ∈ u) : JoinOf u ls.flatten := ⟨ls, h, rfl⟩

theorem appendPending_joinOf {α : Type} {u : List (List α)} {a : List α}
    {pending : List (List α × Bool)} (ha : JoinOf u a)
    (hp : ∀ p ∈ pending, p.1 ∈ u) : JoinOf u (appendPending a pending) := by
  unfold appendPending
  refine joinOf_append ha (joinOf_flatten ?_)
  intro l hl
  obtain ⟨p, hpmem, hpe⟩ := List.mem_filterMap.mp hl
  cases hp2 : p.2 with
  | true => simp [hp2] at hpe
  | false =>
    simp only [hp2, Bool.false_eq_true, ite_false, Option.some.injEq] at hpe
    subst hpe
    exact hp p hpmem

theorem pushPreRoll_mem {α : Type} (S : FastVadSettings) {u : List (List α)}
    {pr : List (List α)} {f : List α}
    (hpr : ∀ l ∈ pr, l ∈ u) (hf : f ∈ u) :
    ∀ l ∈ pushPreRoll S pr f, l ∈ u := by
  unfold pushPreRoll
  split
  · exact hpr
  · intro l hl
    dsimp only at hl
    rcases List.mem_append.mp hl with h | h
    · have hsub : l ∈ pr := by
        split at h
        · exact List.mem_of_mem_tail h
        · exact h
      exact hpr l hsub
    · rw [List.mem_singleton] at h
      subst h
      exact hf

theorem reseedPreRoll_mem {α : Type} (S : FastVadSettings) {u : List (List α)}
    {pending : List (List α × Bool)} (hp : ∀ p ∈ pending, p.1 ∈ u) :
    ∀ l ∈ reseedPreRoll S pending, l ∈ u := by
  unfold reseedPreRoll
  split
  · intro l hl
    simp at hl
  · intro l hl
    dsimp only at hl
    obtain ⟨p, hpm, hpe⟩ := List.mem_map.mp hl
    subst hpe
    exact hp p (List.mem_of_mem_drop hpm)

theorem segStep_bufInv {α : Type} (S : FastVadSettings) (fs : ℕ)
    {u : List (List α)} (s : TrimState α) (f : List α) (b : Bool)
    (hf : f ∈ u) (h : BufInv u s) : BufInv u (segStep S fs s f b) := by
  obtain ⟨htr, hac, hpr, hpd⟩ := h
  unfold segStep
  cases hs : s.in_speech <;> cases b <;>
    simp only [hs, Bool.false_eq_true, Bool.true_eq_false, eq_self_iff_true,
      ite_true, ite_false]
  all_goals repeat' split
  all_goals refine ⟨?_, ?_, ?_, ?_⟩
  all_goals
    first
      | exact htr
      | exact hac
      | exact hpd
      | exact hpr
      | exact joinOf_nil u
      | exact fun x hx => absurd hx (List.not_mem_nil x)
      | exact joinOf_append htr (joinOf_append hac (joinOf_frame hf))
      | exact joinOf_append htr hac
      | exact joinOf_append hac (joinOf_frame hf)
      | exact pushPreRoll_mem S hpr hf
      | exact joinOf_append
          (appendPending_joinOf (joinOf_append hac (joinOf_flatten hpr)) hpd)
          (joinOf_frame hf)
      | exact joinOf_append (appendPending_joinOf hac hpd) (joinOf_frame hf)
      | (refine reseedPreRoll_mem S ?_
         intro p hp2
         rcases List.mem_append.mp hp2 with h2 | h2
         · exact hpd p h2
         · rw [List.mem_singleton] at h2
           subst h2
           exact hf)
      | (intro p hp2
         rcases List.mem_append.mp hp2 with h2 | h2
         · exact hpd p h2
         · rw [List.mem_singleton] at h2
           subst h2
           exact hf)

theorem finalize_bufInv {α : Type} (S : FastVadSettings) (fs : ℕ)
    {u : List (List α)} (s : TrimState α) (h : BufInv u s) :
    BufInv u (finalize S fs s) := by
  obtain ⟨htr, hac, hpr, hpd⟩ := h
  unfold finalize
  split
  · dsimp only
    refine ⟨?_, appendPending_joinOf hac hpd, hpr, by simp⟩
    split
    · exact joinOf_append htr (appendPending_joinOf hac hpd)
    · exact htr
  · exact ⟨htr, hac, hpr, hpd⟩

theorem trimFrames_bufInv {α : Type} (S : FastVadSettings) (fs : ℕ)
    (dec : ℕ → Option Bool) (u : List (List α)) :
    ∀ (fl : List (List α)), (∀ f ∈ fl, f ∈ u) →
      ∀ (s : TrimState α), BufInv u s →
      ∀ s', trimFrames S fs dec fl s = some s' → BufInv u s' := by
  intro fl
  induction fl with
  | nil =>
    intro _ s h s' hrun
    obtain rfl := (Option.some.injEq _ _).mp hrun
    exact h
  | cons f rest ih =>
    intro hall s h s' hrun
    cases hd : dec s.evaluated with
    | none => simp [trimFrames, hd] at hrun
    | some b =>
      simp only [trimFrames, hd] at hrun
      refine ih (fun g hg => hall g (List.mem_cons_of_mem f hg))
        (stepFrame S fs s f b) ?_ s' hrun
      unfold stepFrame
      exact segStep_bufInv S fs _ f b (hall f (List.mem_cons_self f rest)) h

/-- C2 (amended): the concatenation of all emitted segments is a
concatenation of whole input frames (every output sample is copied from an
input frame); it need not be a duplicate-free subsequence, because when
`pre_roll_frames + post_roll_frames > silence_timeout_frames` a closing-gap
frame already committed as post-roll padding is reseeded into the pre-roll
buffer and emitted again in the next segment. -/
theorem trim_output_frame_concat (α : Type) (S : FastVadSettings) (fs : ℕ)
    (dec : ℕ → Option Bool) (audio : List α) (out : FastVadOutcome α)
    (h : FastVad.trim α S fs dec audio = some out) :
    JoinOf (chunks fs audio) out.trimmed_audio := by
  unfold FastVad.trim at h
  cases he : audio.isEmpty with
  | true =>
    rw [he] at h
    simp only [if_true] at h
    obtain rfl := (Option.some.injEq _ _).mp h
    exact joinOf_nil _
  | false =>
    rw [he] at h
    simp only [Bool.false_eq_true, if_false] at h
    obtain ⟨s', hs', hout⟩ := Option.map_eq_some'.mp h
    subst hout
    dsimp only
    have hinit : BufInv (chunks fs audio) (TrimState.init α S) :=
      ⟨joinOf_nil _, joinOf_nil _, by simp [TrimState.init],
        by simp [TrimState.init]⟩
    exact (finalize_bufInv S fs s'
      (trimFrames_bufInv S fs dec (chunks fs audio) (chunks fs audio)
        (fun _ hf => hf) (TrimState.init α S) hinit s' hs')).1

theorem trim_output_frame_concat_witness :
    FastVad.trim ℕ settingsLongTail 240 decAllSilence (tagAudio 1 240) =
        some outcomeSilentFrame ∧
      JoinOf (chunks 240 (tagAudio 1 240)) outcomeSilentFrame.trimmed_audio :=
  ⟨rfl,
    trim_output_frame_concat ℕ settingsLongTail 240 decAllSilence
      (tagAudio 1 240) outcomeSilentFrame rfl⟩
